import Mathlib

/-!
# Verification of the 2-wheeler blind-spot ADAS core

Shallow embedding of the tracking / threat-classification / alerting core of
the repository (`src/main.py` and `src/blind_spot_zones.py`), together with
proofs settling the frozen claims about it.

Modelling conventions:
* Python integers become `Int`; Python `//` (floor division) becomes `Int.fdiv`.
* Python floats (numpy centers, velocities, timestamps, threshold products such
  as `0.35 * frame_width`) become exact rationals `ℚ`.  `int(c * w)` in the
  zone constructors is modelled as `Int.floor` of the exact rational product;
  for every frame size appearing in the concrete claims (800×600) the binary
  floating-point product is exactly the same integer, so the two coincide there.
* `np.linalg.norm` appears only inside comparisons (`dist < min_dist`,
  `dist < 100`); since `Real.sqrt` is strictly monotone on nonnegatives, the
  comparisons are modelled by comparing squared distances (`distSq < minSq`,
  `distSq < 10000`), which is equivalent.
* Python dicts (insertion ordered) become association lists `List (Nat × Track)`.
* `collections.deque(maxlen = n)` becomes a list with `pushBounded`, which
  appends at the tail and drops from the head when over capacity.
-/

/-- A bounding box `[x, y, w, h]` in pixel space, top-left origin
(`detections.append({'bbox': [x, y, w, h], ...})`, src/main.py). -/
structure Bbox where
  x : Int
  y : Int
  w : Int
  h : Int
deriving DecidableEq, Repr

/-- `center_x = x + w // 2` (src/main.py, classify_threat / _is_in_self_zone). -/
def centerX (b : Bbox) : Int := b.x + Int.fdiv b.w 2

/-- `center_y = y + h // 2` (src/main.py, classify_threat / _is_in_self_zone). -/
def centerY (b : Bbox) : Int := b.y + Int.fdiv b.h 2

/-- The numpy (true-division) center used by the tracker:
`[x + w/2, y + h/2]` (src/main.py lines 52-55, 66-69, 128-129). -/
def centerQ (b : Bbox) : ℚ × ℚ := ((b.x : ℚ) + (b.w : ℚ) / 2, (b.y : ℚ) + (b.h : ℚ) / 2)

/-- Squared Euclidean distance; models `np.linalg.norm(a - b)` inside the
tracker's comparisons (monotone transform, see header note). -/
def distSq (a b : ℚ × ℚ) : ℚ := (a.1 - b.1) ^ 2 + (a.2 - b.2) ^ 2

/-- Camera side, `side='left'` / `'right'`. -/
inductive Side where
  | left
  | right
deriving DecidableEq, Repr

/-- The threat-level strings `'none' / 'safe' / 'warning' / 'critical'`. -/
inductive ThreatLevel where
  | none
  | safe
  | warning
  | critical
deriving DecidableEq, Repr

/-- The lane-status strings `'opposite_lane' / 'same_lane'`
(src/main.py, _analyze_lane_position). -/
inductive LaneStatus where
  | opposite_lane
  | same_lane
deriving DecidableEq, Repr

/-- `AdaptiveBlindSpotZone`'s fields (src/main.py lines 145-183). -/
structure AdaptiveBlindSpotZone where
  width : Int
  height : Int
  side : Side
  base_critical : Int × Int
  base_warning : Int × Int
  /-- `(x_min, y_min, x_max, y_max)` self-exclusion rectangle. -/
  self_zone : Int × Int × Int × Int
  lane_center : Int
  lane_width : Int
deriving DecidableEq, Repr

/-- `AdaptiveBlindSpotZone.__init__` (src/main.py lines 149-183); `int(c * v)`
modelled as the exact rational floor (decimal constants written as fractions) (coincides with the float computation at
the concrete frame sizes used in the claims). -/
def mkAdaptiveZone (frame_width frame_height : Int) (side : Side) : AdaptiveBlindSpotZone :=
  match side with
  | .left =>
      { width := frame_width, height := frame_height, side := .left
        base_critical := (0, Rat.floor ((35 / 100 : ℚ) * frame_width))
        base_warning := (Rat.floor ((35 / 100 : ℚ) * frame_width), Rat.floor ((65 / 100 : ℚ) * frame_width))
        self_zone := (Rat.floor ((7 / 10 : ℚ) * frame_width), Rat.floor ((6 / 10 : ℚ) * frame_height),
                      frame_width, frame_height)
        lane_center := Int.fdiv frame_width 2
        lane_width := Rat.floor ((3 / 10 : ℚ) * frame_width) }
  | .right =>
      { width := frame_width, height := frame_height, side := .right
        base_critical := (Rat.floor ((65 / 100 : ℚ) * frame_width), frame_width)
        base_warning := (Rat.floor ((35 / 100 : ℚ) * frame_width), Rat.floor ((65 / 100 : ℚ) * frame_width))
        self_zone := (0, Rat.floor ((6 / 10 : ℚ) * frame_height),
                      Rat.floor ((3 / 10 : ℚ) * frame_width), frame_height)
        lane_center := Int.fdiv frame_width 2
        lane_width := Rat.floor ((3 / 10 : ℚ) * frame_width) }

/-- `AdaptiveBlindSpotZone._is_in_self_zone` (src/main.py lines 185-199):
bbox center inside the self rectangle, boundaries inclusive. -/
def isInSelfZone (z : AdaptiveBlindSpotZone) (b : Bbox) : Bool :=
  let cx := centerX b
  let cy := centerY b
  let (sz_x1, sz_y1, sz_x2, sz_y2) := z.self_zone
  if (sz_x1 ≤ cx ∧ cx ≤ sz_x2) ∧ (sz_y1 ≤ cy ∧ cy ≤ sz_y2) then true else false

/-- `AdaptiveBlindSpotZone._analyze_lane_position` (src/main.py lines 263-282). -/
def analyzeLanePosition (z : AdaptiveBlindSpotZone) (center_x : Int) (velocity : ℚ × ℚ) :
    LaneStatus :=
  match z.side with
  | .left =>
      if (center_x : ℚ) > (7 / 10 : ℚ) * (z.width : ℚ) then
        if velocity.1 < -5 then .opposite_lane else .same_lane
      else .same_lane
  | .right =>
      if (center_x : ℚ) < (3 / 10 : ℚ) * (z.width : ℚ) then
        if velocity.1 > 5 then .opposite_lane else .same_lane
      else .same_lane

/-- `AdaptiveBlindSpotZone._analyze_motion` (src/main.py lines 284-326).
The source also computes `speed = sqrt(vx**2 + vy**2)` but never uses it
(its consumer was removed, see the source comment at line 294). -/
def analyzeMotion (z : AdaptiveBlindSpotZone) (b : Bbox) (velocity : ℚ × ℚ) :
    ThreatLevel × String :=
  let center_x := centerX b
  let vx := velocity.1
  match z.side with
  | .left =>
      if vx < -3 then
        if center_x < z.base_critical.2 then (.critical, "Fast approach in blind spot")
        else if center_x < z.base_warning.2 then (.warning, "Approaching blind spot")
        else (.safe, "No immediate threat")
      else if vx > 3 then (.safe, "Moving away")
      else
        if center_x < z.base_critical.2 then (.critical, "Parallel in blind spot")
        else if center_x < z.base_warning.2 then (.warning, "Parallel nearby")
        else (.safe, "No immediate threat")
  | .right =>
      if vx > 3 then
        if center_x > z.base_critical.1 then (.critical, "Fast approach in blind spot")
        else if center_x > z.base_warning.1 then (.warning, "Approaching blind spot")
        else (.safe, "No immediate threat")
      else if vx < -3 then (.safe, "Moving away")
      else
        if center_x > z.base_critical.1 then (.critical, "Parallel in blind spot")
        else if center_x > z.base_warning.1 then (.warning, "Parallel nearby")
        else (.safe, "No immediate threat")

/-- `AdaptiveBlindSpotZone._analyze_distance` (src/main.py lines 328-341):
bbox height as a distance proxy. -/
def analyzeDistance (z : AdaptiveBlindSpotZone) (bbox_height : Int) : ThreatLevel :=
  let height_ratio : ℚ := (bbox_height : ℚ) / (z.height : ℚ)
  if height_ratio > (45 / 100 : ℚ) then .critical
  else if height_ratio > (3 / 10 : ℚ) then .warning
  else .safe

/-- The tracked-vehicle dict returned by `VehicleTracker._get_tracked_vehicles`
(src/main.py lines 109-142).  The source includes the `'positions'` key only
when the history has at least two entries; here `positions = []` stands for
the absent key. -/
structure TrackedVehicle where
  id : Nat
  bbox : Bbox
  class_id : Int
  velocity : ℚ × ℚ
  history_length : Nat
  positions : List Bbox
deriving DecidableEq, Repr

/-- `AdaptiveBlindSpotZone.classify_threat` (src/main.py lines 201-261).
The `frame` argument is passed by the caller and never inspected; it is kept
with an arbitrary type to model that. -/
def classifyThreat {F : Type} (z : AdaptiveBlindSpotZone) (tracked_vehicle : TrackedVehicle)
    (_frame : F) : ThreatLevel × String :=
  let bbox := tracked_vehicle.bbox
  let velocity := tracked_vehicle.velocity
  let center_x := centerX bbox
  let center_y := centerY bbox
  -- 1. Self-vehicle exclusion zone filter
  if isInSelfZone z bbox then (.none, "In self-vehicle zone")
  -- 2. Vertical position filter (ignore sky/ground)
  else if (center_y : ℚ) < (15 / 100 : ℚ) * (z.height : ℚ) ∨
          (center_y : ℚ) > (85 / 100 : ℚ) * (z.height : ℚ) then (.none, "Out of ROI (vertical)")
  -- 3. Lane position analysis
  else if analyzeLanePosition z center_x velocity = .opposite_lane then
    (.none, "Opposite lane traffic")
  else
    -- 4. Size-based distance estimation
    let distance_threat := analyzeDistance z bbox.h
    -- 5. Motion analysis
    let mr := analyzeMotion z bbox velocity
    let motion_threat := mr.1
    let reason := mr.2
    -- 6. Combine threat levels
    if distance_threat = .safe then (.safe, "Distant vehicle")
    else if motion_threat = .none then (.none, reason)
    else if motion_threat = .critical ∨ distance_threat = .critical then
      (.critical, if distance_threat = .critical then "Very close" else reason)
    else if motion_threat = .warning ∨ distance_threat = .warning then
      (.warning,
        if distance_threat = .warning ∧ motion_threat = .safe then "Moderately close" else reason)
    else (.safe, "No immediate threat")

/-- A per-frame detection dict `{'bbox', 'confidence', 'class_id'}`
(src/main.py lines 469-473). -/
structure Detection where
  bbox : Bbox
  confidence : ℚ
  class_id : Int
deriving DecidableEq, Repr

/-- One entry of `VehicleTracker.tracks`
(`{'positions': deque, 'last_seen': time, 'class': id, 'confidence': c}`,
src/main.py lines 93-100). -/
structure Track where
  positions : List Bbox
  last_seen : ℚ
  class_id : Int
  confidence : ℚ
deriving DecidableEq, Repr

/-- `VehicleTracker`'s mutable state (src/main.py lines 17-21); the insertion
ordered dict `self.tracks` is an association list. -/
structure TrackerState where
  tracks : List (Nat × Track)
  next_id : Nat
  max_history : Nat
  max_disappeared : ℚ
deriving DecidableEq, Repr

/-- `VehicleTracker.__init__` with the default `max_history=10`,
`max_disappeared=1.0` (src/main.py lines 17-21). -/
def initTracker : TrackerState := { tracks := [], next_id := 0, max_history := 10, max_disappeared := 1 }

/-- Append to a `deque(maxlen = n)`: add at the tail, dropping from the head
whatever exceeds the capacity `n`. -/
def pushBounded (n : Nat) (ps : List Bbox) (b : Bbox) : List Bbox :=
  let q := ps ++ [b]
  q.drop (q.length - n)

/-- The numpy center of a track's last known bbox (src/main.py lines 51-55). -/
def lastCenterQ (t : Track) : ℚ × ℚ := centerQ (t.positions.getLastD ⟨0, 0, 0, 0⟩)

/-- The detection's numpy center (src/main.py lines 65-69). -/
def detCenterQ (d : Detection) : ℚ × ℚ := centerQ d.bbox

/-- The body of the `for i, det in enumerate(detections)` loop
(src/main.py lines 65-75): the accumulator `acc = some (min_dist², best_match)`
(`none` standing for `min_dist = inf, best_match = None`) is updated when
`dist < min_dist and dist < 100` (squared-distance form). -/
def bestAccum (lastC : ℚ × ℚ) (det : Detection) (idx : Nat) (acc : Option (ℚ × Nat)) :
    Option (ℚ × Nat) :=
  match acc with
  | none =>
      if distSq lastC (detCenterQ det) < 10000 then some (distSq lastC (detCenterQ det), idx)
      else none
  | some (m, j) =>
      if distSq lastC (detCenterQ det) < m ∧ distSq lastC (detCenterQ det) < 10000 then
        some (distSq lastC (detCenterQ det), idx)
      else some (m, j)

/-- The `for i, det in enumerate(detections)` loop of src/main.py lines 57-75,
running over detections with index starting at `idx` and skipping indices in
`matched`. -/
def bestMatchAux (lastC : ℚ × ℚ) (matched : List Nat) :
    Nat → List Detection → Option (ℚ × Nat) → Option (ℚ × Nat)
  | _, [], acc => acc
  | idx, det :: rest, acc =>
      if idx ∈ matched then bestMatchAux lastC matched (idx + 1) rest acc
      else bestMatchAux lastC matched (idx + 1) rest (bestAccum lastC det idx acc)

/-- The `best_match` found for one track (src/main.py lines 57-75). -/
def bestMatch (lastC : ℚ × ℚ) (dets : List Detection) (matched : List Nat) : Option Nat :=
  (bestMatchAux lastC matched 0 dets none).map Prod.snd

/-- `VehicleTracker._update_track` (src/main.py lines 103-107): append the
bbox, refresh `last_seen` and `confidence` (the class is not updated). -/
def updTrack (n : Nat) (t : Track) (d : Detection) (now : ℚ) : Track :=
  { t with positions := pushBounded n t.positions d.bbox, last_seen := now,
           confidence := d.confidence }

/-- One iteration of the matching loop `for tid, track in list(self.tracks.items())`
(src/main.py lines 47-83), threading the current dict `m` and the `matched`
index set.  The iteration runs over the snapshot entry `p`; a matched
detection updates `m` at `p`'s key, an unmatched stale track is deleted. -/
def matchStep (dets : List Detection) (now : ℚ) (n : Nat) (maxDis : ℚ)
    (acc : List (Nat × Track) × List Nat) (p : Nat × Track) :
    List (Nat × Track) × List Nat :=
  let m := acc.1
  let matched := acc.2
  if p.2.positions.isEmpty then acc
  else
    match bestMatch (lastCenterQ p.2) dets matched with
    | some i =>
        (m.map fun q =>
            if q.1 = p.1 then (q.1, updTrack n q.2 (dets.getD i ⟨⟨0, 0, 0, 0⟩, 0, 0⟩) now) else q,
         matched ++ [i])
    | none =>
        if now - p.2.last_seen > maxDis then (m.filter fun q => q.1 ≠ p.1, matched) else acc

/-- The whole matching pass of `VehicleTracker.update` (src/main.py lines 44-83),
returning the updated dict and the matched detection indices. -/
def runMatch (st : TrackerState) (dets : List Detection) (now : ℚ) :
    List (Nat × Track) × List Nat :=
  st.tracks.foldl (matchStep dets now st.max_history st.max_disappeared) (st.tracks, [])

/-- The fresh track built by `VehicleTracker._create_track`
(src/main.py lines 93-100): `deque([bbox], maxlen = max_history)`. -/
def mkNewTrack (d : Detection) (now : ℚ) (n : Nat) : Track :=
  { positions := pushBounded n [] d.bbox, last_seen := now, class_id := d.class_id,
    confidence := d.confidence }

/-- `VehicleTracker._create_track` (src/main.py lines 93-101): insert under
`next_id`, then increment `next_id`. -/
def createTrack (st : TrackerState) (d : Detection) (now : ℚ) : TrackerState :=
  { st with tracks := st.tracks ++ [(st.next_id, mkNewTrack d now st.max_history)],
            next_id := st.next_id + 1 }

/-- The loop `for i, det in enumerate(detections): if i not in matched: create`
(src/main.py lines 85-88), with the index running from `idx`. -/
def createAux (now : ℚ) (matched : List Nat) : Nat → List Detection → TrackerState → TrackerState
  | _, [], st => st
  | idx, det :: rest, st =>
      if idx ∈ matched then createAux now matched (idx + 1) rest st
      else createAux now matched (idx + 1) rest (createTrack st det now)

/-- Track creation for the unmatched detections (src/main.py lines 85-88).
With `matched = []` this is also the `len(self.tracks) == 0` initialisation
branch (lines 39-42), which creates a track for every detection. -/
def createUnmatched (st : TrackerState) (dets : List Detection) (matched : List Nat) (now : ℚ) :
    TrackerState :=
  createAux now matched 0 dets st

/-- `VehicleTracker._get_tracked_vehicles` (src/main.py lines 109-142): one
tracked-vehicle dict per live track, velocity `(0,0)` below two history
entries, else the displacement of the numpy centers of the last two entries. -/
def getTrackedVehicles (tracks : List (Nat × Track)) : List TrackedVehicle :=
  tracks.map fun p =>
    let t := p.2
    if t.positions.length < 2 then
      { id := p.1, bbox := t.positions.getLastD ⟨0, 0, 0, 0⟩, class_id := t.class_id,
        velocity := (0, 0), history_length := t.positions.length, positions := [] }
    else
      let curr := t.positions.getLastD ⟨0, 0, 0, 0⟩
      let prev := t.positions.dropLast.getLastD ⟨0, 0, 0, 0⟩
      { id := p.1, bbox := curr, class_id := t.class_id,
        velocity := ((centerQ curr).1 - (centerQ prev).1, (centerQ curr).2 - (centerQ prev).2),
        history_length := t.positions.length, positions := t.positions }

/-- `VehicleTracker.update` (src/main.py lines 23-91).  With no detections it
only prunes tracks idle for at least `max_disappeared` and returns `[]`;
otherwise it runs the matching pass, creates tracks for unmatched detections
(the `len(self.tracks)==0` branch of the source coincides with running the
match pass over no tracks) and returns the tracked vehicles. -/
def update (st : TrackerState) (dets : List Detection) (now : ℚ) :
    TrackerState × List TrackedVehicle :=
  if dets.isEmpty then
    ({ st with tracks := st.tracks.filter fun p => now - p.2.last_seen < st.max_disappeared }, [])
  else
    let mm := runMatch st dets now
    let st' := createUnmatched { st with tracks := mm.1 } dets mm.2 now
    (st', getTrackedVehicles st'.tracks)

/-- A sequence of `update` calls (state part only). -/
def applyUpdates (st : TrackerState) (calls : List (List Detection × ℚ)) : TrackerState :=
  calls.foldl (fun s c => (update s c.1 c.2).1) st

/-- The per-frame threat annotation loop of `process_side_view`
(src/main.py lines 510-525): classify every tracked vehicle, skip the
`'none'` results, keep `(vehicle, threat, reason)` triples. -/
def threatVehicles (z : AdaptiveBlindSpotZone) (vs : List TrackedVehicle) :
    List (TrackedVehicle × ThreatLevel × String) :=
  vs.filterMap fun v =>
    let tr := classifyThreat z v ()
    if tr.1 = .none then none else some (v, tr)

/-- `critical_detected` of `process_side_view` (src/main.py lines 506-523):
true iff some tracked vehicle classifies as `'critical'`. -/
def criticalDetected (z : AdaptiveBlindSpotZone) (vs : List TrackedVehicle) : Bool :=
  vs.any fun v => (classifyThreat z v ()).1 = .critical

/-- `warning_detected` of `process_side_view` (src/main.py lines 507-525). -/
def warningDetected (z : AdaptiveBlindSpotZone) (vs : List TrackedVehicle) : Bool :=
  vs.any fun v => (classifyThreat z v ()).1 = .warning

/-- `self.warning_cooldown = 1.5` (src/main.py line 441). -/
def warningCooldown : ℚ := 3 / 2

/-- The warning-trigger step of `process_side_view` (src/main.py lines 569-574)
for one side: returns the fired alert level (if any) and the side's new
`last_warning_time`. -/
def fireAlert (critical_detected warning_detected : Bool) (now last : ℚ) :
    Option String × ℚ :=
  if critical_detected = true ∧ now - last > warningCooldown then (some "CRITICAL", now)
  else if warning_detected = true ∧ now - last > warningCooldown then (some "WARNING", now)
  else (none, last)

/-- The same step acting on the per-side map `self.last_warning_time`
(src/main.py lines 440, 569-574): only the entry of `side` is read or
written. -/
def fireSide (last : Side → ℚ) (side : Side) (critical_detected warning_detected : Bool)
    (now : ℚ) : Option String × (Side → ℚ) :=
  let r := fireAlert critical_detected warning_detected now (last side)
  (r.1, fun s => if s = side then r.2 else last s)

/-- `BlindSpotZone`'s fields (src/blind_spot_zones.py lines 7-24), the static
zone variant. -/
structure BlindSpotZone where
  width : Int
  height : Int
  side : Side
  critical_zone : Int × Int
  warning_zone : Int × Int
  safe_zone : Int × Int
deriving DecidableEq, Repr

/-- `BlindSpotZone.__init__` (src/blind_spot_zones.py lines 7-24); `int(c * w)`
modelled as the exact rational floor, as for `mkAdaptiveZone`. -/
def mkBlindSpotZone (frame_width frame_height : Int) (side : Side) : BlindSpotZone :=
  match side with
  | .left =>
      { width := frame_width, height := frame_height, side := .left
        critical_zone := (0, Rat.floor ((4 / 10 : ℚ) * frame_width))
        warning_zone := (Rat.floor ((4 / 10 : ℚ) * frame_width), Rat.floor ((7 / 10 : ℚ) * frame_width))
        safe_zone := (Rat.floor ((7 / 10 : ℚ) * frame_width), frame_width) }
  | .right =>
      { width := frame_width, height := frame_height, side := .right
        critical_zone := (Rat.floor ((6 / 10 : ℚ) * frame_width), frame_width)
        warning_zone := (Rat.floor ((3 / 10 : ℚ) * frame_width), Rat.floor ((6 / 10 : ℚ) * frame_width))
        safe_zone := (0, Rat.floor ((3 / 10 : ℚ) * frame_width)) }

/-- `BlindSpotZone.get_zone` (src/blind_spot_zones.py lines 26-51).  Note the
vertical check tests the bbox's top coordinate `y`, not the bbox center. -/
def getZone (z : BlindSpotZone) (b : Bbox) : ThreatLevel :=
  let center_x := centerX b
  if (b.y : ℚ) < (2 / 10 : ℚ) * (z.height : ℚ) ∨ (b.y : ℚ) > (8 / 10 : ℚ) * (z.height : ℚ) then
    .none
  else
    match z.side with
    | .left =>
        if center_x ≤ z.critical_zone.2 then .critical
        else if center_x ≤ z.warning_zone.2 then .warning
        else .safe
    | .right =>
        if center_x ≥ z.critical_zone.1 then .critical
        else if center_x ≥ z.warning_zone.1 then .warning
        else .safe

/-! ### Helper lemmas about the tracker -/

/-- Folding preserves an invariant when every step taken on a list element
does. -/
theorem foldl_preserves {α β : Type} (P : β → Prop) :
    ∀ (l : List α) (f : β → α → β) (b : β),
      (∀ x a, a ∈ l → P x → P (f x a)) → P b → P (l.foldl f b)
  | [], _, _, _, hb => hb
  | a :: l, f, b, hf, hb =>
      foldl_preserves P l f (f b a)
        (fun x a' ha' hx => hf x a' (List.mem_cons_of_mem _ ha') hx)
        (hf b a (List.mem_cons_self _ _) hb)

theorem pushBounded_length_le (n : Nat) (ps : List Bbox) (b : Bbox) :
    (pushBounded n ps b).length ≤ n := by
  unfold pushBounded
  simp only [List.length_drop, List.length_append, List.length_cons, List.length_nil]
  omega

theorem pushBounded_length (n : Nat) (ps : List Bbox) (b : Bbox) :
    (pushBounded n ps b).length = min (ps.length + 1) n := by
  unfold pushBounded
  simp only [List.length_drop, List.length_append, List.length_cons, List.length_nil]
  omega

theorem pushBounded_below (n : Nat) (ps : List Bbox) (b : Bbox) (h : ps.length < n) :
    pushBounded n ps b = ps ++ [b] := by
  have h0 : (ps ++ [b]).length - n = 0 := by
    simp only [List.length_append, List.length_cons, List.length_nil]
    omega
  show List.drop ((ps ++ [b]).length - n) (ps ++ [b]) = ps ++ [b]
  rw [h0, List.drop_zero]

theorem pushBounded_at_capacity (n : Nat) (ps : List Bbox) (b : Bbox)
    (h : ps.length = n) (hn : 0 < n) :
    pushBounded n ps b = ps.tail ++ [b] := by
  have h1 : (ps ++ [b]).length - n = 1 := by
    simp only [List.length_append, List.length_cons, List.length_nil]
    omega
  show List.drop ((ps ++ [b]).length - n) (ps ++ [b]) = ps.tail ++ [b]
  rw [h1, List.drop_append_of_le_length (by omega), List.drop_one]

theorem createTrack_next_id (st : TrackerState) (d : Detection) (now : ℚ) :
    (createTrack st d now).next_id = st.next_id + 1 := rfl

theorem createTrack_max_history (st : TrackerState) (d : Detection) (now : ℚ) :
    (createTrack st d now).max_history = st.max_history := rfl

theorem createAux_max_history (now : ℚ) (matched : List Nat) :
    ∀ (rest : List Detection) (idx : Nat) (st : TrackerState),
      (createAux now matched idx rest st).max_history = st.max_history
  | [], _, _ => rfl
  | det :: rest, idx, st => by
      unfold createAux
      by_cases h : idx ∈ matched
      · rw [if_pos h]; exact createAux_max_history now matched rest (idx + 1) st
      · rw [if_neg h]
        rw [createAux_max_history now matched rest (idx + 1) (createTrack st det now)]
        rfl

theorem createAux_next_id_le (now : ℚ) (matched : List Nat) :
    ∀ (rest : List Detection) (idx : Nat) (st : TrackerState),
      st.next_id ≤ (createAux now matched idx rest st).next_id
  | [], _, _ => Nat.le_refl _
  | det :: rest, idx, st => by
      unfold createAux
      by_cases h : idx ∈ matched
      · rw [if_pos h]; exact createAux_next_id_le now matched rest (idx + 1) st
      · rw [if_neg h]
        exact Nat.le_trans (Nat.le_succ _)
          (createAux_next_id_le now matched rest (idx + 1) (createTrack st det now))

theorem createAux_mem_mono (now : ℚ) (matched : List Nat) :
    ∀ (rest : List Detection) (idx : Nat) (st : TrackerState) (p : Nat × Track),
      p ∈ st.tracks → p ∈ (createAux now matched idx rest st).tracks
  | [], _, _, _, hp => hp
  | det :: rest, idx, st, p, hp => by
      unfold createAux
      by_cases h : idx ∈ matched
      · rw [if_pos h]; exact createAux_mem_mono now matched rest (idx + 1) st p hp
      · rw [if_neg h]
        exact createAux_mem_mono now matched rest (idx + 1) (createTrack st det now) p
          (List.mem_append_left _ hp)

theorem createAux_mem_or (now : ℚ) (matched : List Nat) :
    ∀ (rest : List Detection) (idx : Nat) (st : TrackerState) (p : Nat × Track),
      p ∈ (createAux now matched idx rest st).tracks →
      p ∈ st.tracks ∨ st.next_id ≤ p.1
  | [], _, _, _, hp => Or.inl hp
  | det :: rest, idx, st, p, hp => by
      unfold createAux at hp
      by_cases h : idx ∈ matched
      · rw [if_pos h] at hp
        exact createAux_mem_or now matched rest (idx + 1) st p hp
      · rw [if_neg h] at hp
        rcases createAux_mem_or now matched rest (idx + 1) (createTrack st det now) p hp with
          hin | hge
        · rcases List.mem_append.1 hin with hold | hnew
          · exact Or.inl hold
          · rcases List.mem_singleton.1 hnew with rfl
            exact Or.inr (Nat.le_refl _)
        · exact Or.inr (Nat.le_trans (Nat.le_succ _) hge)

theorem createAux_ids_lt (now : ℚ) (matched : List Nat) :
    ∀ (rest : List Detection) (idx : Nat) (st : TrackerState),
      (∀ p ∈ st.tracks, p.1 < st.next_id) →
      ∀ p ∈ (createAux now matched idx rest st).tracks,
        p.1 < (createAux now matched idx rest st).next_id
  | [], _, _, hinv, p, hp => hinv p hp
  | det :: rest, idx, st, hinv, p, hp => by
      unfold createAux at hp ⊢
      by_cases h : idx ∈ matched
      · rw [if_pos h] at hp ⊢
        exact createAux_ids_lt now matched rest (idx + 1) st hinv p hp
      · rw [if_neg h] at hp ⊢
        refine createAux_ids_lt now matched rest (idx + 1) (createTrack st det now) ?_ p hp
        intro q hq
        rcases List.mem_append.1 hq with hold | hnew
        · exact Nat.lt_trans (hinv q hold) (Nat.lt_succ_self _)
        · rcases List.mem_singleton.1 hnew with rfl
          exact Nat.lt_succ_self _

theorem createAux_histlen (now : ℚ) (matched : List Nat) :
    ∀ (rest : List Detection) (idx : Nat) (st : TrackerState),
      (∀ p ∈ st.tracks, p.2.positions.length ≤ st.max_history) →
      ∀ p ∈ (createAux now matched idx rest st).tracks,
        p.2.positions.length ≤ st.max_history
  | [], _, _, hinv, p, hp => hinv p hp
  | det :: rest, idx, st, hinv, p, hp => by
      unfold createAux at hp
      by_cases h : idx ∈ matched
      · rw [if_pos h] at hp
        exact createAux_histlen now matched rest (idx + 1) st hinv p hp
      · rw [if_neg h] at hp
        have := createAux_histlen now matched rest (idx + 1) (createTrack st det now) ?_ p hp
        · exact this
        · intro q hq
          rcases List.mem_append.1 hq with hold | hnew
          · exact hinv q hold
          · rcases List.mem_singleton.1 hnew with rfl
            exact pushBounded_length_le _ _ _

theorem createAux_creates (now : ℚ) (matched : List Nat) (dflt : Detection) :
    ∀ (rest : List Detection) (idx : Nat) (st : TrackerState) (j : Nat),
      j < rest.length → (idx + j) ∉ matched →
      ∃ tid, st.next_id ≤ tid ∧
        (tid, mkNewTrack (rest.getD j dflt) now st.max_history) ∈
          (createAux now matched idx rest st).tracks
  | [], _, _, j, hj, _ => absurd hj (Nat.not_lt_zero j)
  | det :: rest, idx, st, 0, _, hnm => by
      rw [Nat.add_zero] at hnm
      refine ⟨st.next_id, Nat.le_refl _, ?_⟩
      unfold createAux
      rw [if_neg hnm]
      simp only [List.getD_cons_zero]
      exact createAux_mem_mono now matched rest (idx + 1) (createTrack st det now) _
        (List.mem_append_right _ (List.mem_singleton.2 rfl))
  | det :: rest, idx, st, j + 1, hj, hnm => by
      have hj' : j < rest.length := Nat.lt_of_succ_lt_succ hj
      have hnm' : (idx + 1 + j) ∉ matched := by
        have : idx + 1 + j = idx + (j + 1) := by omega
        rw [this]; exact hnm
      unfold createAux
      by_cases h : idx ∈ matched
      · rw [if_pos h]
        rcases createAux_creates now matched dflt rest (idx + 1) st j hj' hnm' with
          ⟨tid, hle, hmem⟩
        exact ⟨tid, hle, by simpa using hmem⟩
      · rw [if_neg h]
        rcases createAux_creates now matched dflt rest (idx + 1) (createTrack st det now) j hj'
          hnm' with ⟨tid, hle, hmem⟩
        refine ⟨tid, Nat.le_trans (Nat.le_succ _) hle, ?_⟩
        have hmh : (createTrack st det now).max_history = st.max_history := rfl
        rw [hmh] at hmem
        simpa using hmem

theorem matchStep_eq (dets : List Detection) (now : ℚ) (n : Nat) (maxDis : ℚ)
    (acc : List (Nat × Track) × List Nat) (p : Nat × Track) :
    matchStep dets now n maxDis acc p =
      if p.2.positions.isEmpty then acc
      else
        match bestMatch (lastCenterQ p.2) dets acc.2 with
        | some i =>
            (acc.1.map fun q =>
                if q.1 = p.1 then (q.1, updTrack n q.2 (dets.getD i ⟨⟨0, 0, 0, 0⟩, 0, 0⟩) now) else q,
             acc.2 ++ [i])
        | none =>
            if now - p.2.last_seen > maxDis then (acc.1.filter fun q => q.1 ≠ p.1, acc.2)
            else acc := rfl

theorem matchStep_entries (dets : List Detection) (now : ℚ) (n : Nat) (maxDis : ℚ)
    (P : Nat × Track → Prop)
    (hupd : ∀ (q : Nat × Track) (d : Detection), P q → P (q.1, updTrack n q.2 d now))
    (acc : List (Nat × Track) × List Nat) (p : Nat × Track)
    (h : ∀ q ∈ acc.1, P q) :
    ∀ q ∈ (matchStep dets now n maxDis acc p).1, P q := by
  intro q hq
  rw [matchStep_eq] at hq
  by_cases he : p.2.positions.isEmpty
  · rw [if_pos he] at hq
    exact h q hq
  · rw [if_neg he] at hq
    rcases hbm : bestMatch (lastCenterQ p.2) dets acc.2 with _ | i
    · rw [hbm] at hq
      by_cases hs : now - p.2.last_seen > maxDis
      · rw [if_pos hs] at hq
        exact h q (List.mem_filter.1 hq).1
      · rw [if_neg hs] at hq
        exact h q hq
    · rw [hbm] at hq
      rcases List.mem_map.1 hq with ⟨r, hr, rfl⟩
      by_cases hr1 : r.1 = p.1
      · rw [if_pos hr1]
        exact hupd r _ (h r hr)
      · rw [if_neg hr1]
        exact h r hr

theorem matchStep_matched (dets : List Detection) (now : ℚ) (n : Nat) (maxDis : ℚ)
    (acc : List (Nat × Track) × List Nat) (p : Nat × Track) (i : Nat)
    (hbm : ¬ p.2.positions.isEmpty = true →
      ∀ j, bestMatch (lastCenterQ p.2) dets acc.2 = some j → j ≠ i)
    (h : i ∉ acc.2) :
    i ∉ (matchStep dets now n maxDis acc p).2 := by
  rw [matchStep_eq]
  by_cases he : p.2.positions.isEmpty
  · rw [if_pos he]; exact h
  · rw [if_neg he]
    rcases hb : bestMatch (lastCenterQ p.2) dets acc.2 with _ | j
    · by_cases hs : now - p.2.last_seen > maxDis
      · rw [if_pos hs]; exact h
      · rw [if_neg hs]; exact h
    · intro hmem
      rcases List.mem_append.1 hmem with hold | hnew
      · exact h hold
      · exact hbm he j hb (List.mem_singleton.1 hnew).symm

theorem bestAccum_ne (lastC : ℚ × ℚ) (det : Detection) (idx : Nat) (acc : Option (ℚ × Nat))
    (i : Nat) (hacc : ∀ m j, acc = some (m, j) → j ≠ i)
    (hbig : idx = i → 10000 < distSq lastC (detCenterQ det)) :
    ∀ m j, bestAccum lastC det idx acc = some (m, j) → j ≠ i := by
  intro m j hj
  rcases acc with _ | ⟨mm, jj⟩
  · simp only [bestAccum] at hj
    split_ifs at hj with hlt
    · simp only [Option.some.injEq, Prod.mk.injEq] at hj
      rcases hj with ⟨h1, h2⟩
      subst h2
      intro heq
      exact absurd (hbig heq) (by linarith)
  · simp only [bestAccum] at hj
    split_ifs at hj with hlt
    · simp only [Option.some.injEq, Prod.mk.injEq] at hj
      rcases hj with ⟨h1, h2⟩
      subst h2
      intro heq
      exact absurd (hbig heq) (by linarith [hlt.2])
    · simp only [Option.some.injEq, Prod.mk.injEq] at hj
      rcases hj with ⟨h1, h2⟩
      subst h2
      exact hacc mm jj rfl

theorem bestMatchAux_ne (lastC : ℚ × ℚ) (matched : List Nat) (i : Nat) (dflt : Detection) :
    ∀ (rest : List Detection) (idx : Nat) (acc : Option (ℚ × Nat)),
      (∀ k, k < rest.length → idx + k = i →
        10000 < distSq lastC (detCenterQ (rest.getD k dflt))) →
      (∀ m j, acc = some (m, j) → j ≠ i) →
      ∀ m j, bestMatchAux lastC matched idx rest acc = some (m, j) → j ≠ i
  | [], _, acc, _, hacc, m, j, hr => hacc m j hr
  | det :: rest, idx, acc, hbig, hacc, m, j, hr => by
      have hbig' : ∀ k, k < rest.length → (idx + 1) + k = i →
          10000 < distSq lastC (detCenterQ (rest.getD k dflt)) := by
        intro k hk hki
        have := hbig (k + 1) (Nat.succ_lt_succ hk) (by omega)
        simpa using this
      unfold bestMatchAux at hr
      by_cases hm : idx ∈ matched
      · rw [if_pos hm] at hr
        exact bestMatchAux_ne lastC matched i dflt rest (idx + 1) acc hbig' hacc m j hr
      · rw [if_neg hm] at hr
        refine bestMatchAux_ne lastC matched i dflt rest (idx + 1) _ hbig' ?_ m j hr
        refine bestAccum_ne lastC det idx acc i hacc ?_
        intro heq
        have := hbig 0 (Nat.succ_pos _) (by omega)
        simpa using this

theorem bestMatch_ne (lastC : ℚ × ℚ) (dets : List Detection) (matched : List Nat) (i : Nat)
    (dflt : Detection) (hi : i < dets.length)
    (hbig : 10000 < distSq lastC (detCenterQ (dets.getD i dflt))) :
    bestMatch lastC dets matched ≠ some i := by
  intro h
  unfold bestMatch at h
  rcases haux : bestMatchAux lastC matched 0 dets none with _ | ⟨m, j⟩
  · rw [haux] at h
    exact absurd h (by simp)
  · rw [haux] at h
    simp only [Option.map_some', Option.some.injEq] at h
    have hne : j ≠ i := by
      refine bestMatchAux_ne lastC matched i dflt dets 0 none ?_ (by simp) m j haux
      intro k hk hki
      have : k = i := by omega
      subst this
      exact hbig
    exact hne h

theorem runMatch_not_mem (st : TrackerState) (dets : List Detection) (now : ℚ) (i : Nat)
    (dflt : Detection) (hi : i < dets.length)
    (hfar : ∀ p ∈ st.tracks, ¬ p.2.positions.isEmpty = true →
      10000 < distSq (lastCenterQ p.2) (detCenterQ (dets.getD i dflt))) :
    i ∉ (runMatch st dets now).2 := by
  unfold runMatch
  refine foldl_preserves (fun acc => i ∉ acc.2) st.tracks
    (matchStep dets now st.max_history st.max_disappeared) (st.tracks, []) ?_ (by simp)
  intro acc p hp hacc
  refine matchStep_matched dets now st.max_history st.max_disappeared acc p i ?_ hacc
  intro he j hbm hji
  subst hji
  exact bestMatch_ne (lastCenterQ p.2) dets acc.2 j dflt hi (hfar p hp he) hbm

theorem runMatch_entries (st : TrackerState) (dets : List Detection) (now : ℚ)
    (P : Nat × Track → Prop)
    (hupd : ∀ (q : Nat × Track) (d : Detection), P q →
      P (q.1, updTrack st.max_history q.2 d now))
    (h : ∀ q ∈ st.tracks, P q) :
    ∀ q ∈ (runMatch st dets now).1, P q := by
  unfold runMatch
  refine foldl_preserves (fun acc => ∀ q ∈ acc.1, P q) st.tracks
    (matchStep dets now st.max_history st.max_disappeared) (st.tracks, []) ?_ h
  intro acc p _ hacc
  exact matchStep_entries dets now st.max_history st.max_disappeared P hupd acc p hacc

theorem runMatch_ids (st : TrackerState) (dets : List Detection) (now : ℚ) :
    ∀ p ∈ (runMatch st dets now).1, p.1 ∈ st.tracks.map Prod.fst := by
  refine runMatch_entries st dets now (fun q => q.1 ∈ st.tracks.map Prod.fst) ?_ ?_
  · intro q d hq
    exact hq
  · intro q hq
    exact List.mem_map_of_mem Prod.fst hq

theorem runMatch_histlen (st : TrackerState) (dets : List Detection) (now : ℚ)
    (h : ∀ p ∈ st.tracks, p.2.positions.length ≤ st.max_history) :
    ∀ p ∈ (runMatch st dets now).1, p.2.positions.length ≤ st.max_history := by
  refine runMatch_entries st dets now (fun q => q.2.positions.length ≤ st.max_history) ?_ h
  intro q d _
  exact pushBounded_length_le _ _ _

theorem update_nil (st : TrackerState) (now : ℚ) :
    update st [] now =
      ({ st with tracks := st.tracks.filter fun p => now - p.2.last_seen < st.max_disappeared },
       []) := rfl

theorem update_cons (st : TrackerState) (d : Detection) (rest : List Detection) (now : ℚ) :
    update st (d :: rest) now =
      (createUnmatched { st with tracks := (runMatch st (d :: rest) now).1 } (d :: rest)
         (runMatch st (d :: rest) now).2 now,
       getTrackedVehicles (createUnmatched { st with tracks := (runMatch st (d :: rest) now).1 }
         (d :: rest) (runMatch st (d :: rest) now).2 now).tracks) := rfl

theorem update_cons_fst (st : TrackerState) (d : Detection) (rest : List Detection) (now : ℚ) :
    (update st (d :: rest) now).1 =
      createAux now (runMatch st (d :: rest) now).2 0 (d :: rest)
        { st with tracks := (runMatch st (d :: rest) now).1 } := rfl

theorem update_max_history (st : TrackerState) (dets : List Detection) (now : ℚ) :
    ((update st dets now).1).max_history = st.max_history := by
  cases dets with
  | nil => rfl
  | cons d rest =>
      rw [update_cons_fst]
      exact createAux_max_history now _ _ 0 { st with tracks := (runMatch st (d :: rest) now).1 }

theorem update_next_id_le (st : TrackerState) (dets : List Detection) (now : ℚ) :
    st.next_id ≤ ((update st dets now).1).next_id := by
  cases dets with
  | nil => exact Nat.le_refl _
  | cons d rest =>
      rw [update_cons_fst]
      exact createAux_next_id_le now _ _ 0 { st with tracks := (runMatch st (d :: rest) now).1 }

theorem update_ids_or (st : TrackerState) (dets : List Detection) (now : ℚ) :
    ∀ p ∈ ((update st dets now).1).tracks,
      p.1 ∈ st.tracks.map Prod.fst ∨ st.next_id ≤ p.1 := by
  cases dets with
  | nil =>
      rw [update_nil]
      intro p hp
      exact Or.inl (List.mem_map_of_mem Prod.fst (List.mem_filter.1 hp).1)
  | cons d rest =>
      rw [update_cons_fst]
      intro p hp
      rcases createAux_mem_or now _ _ 0 { st with tracks := (runMatch st (d :: rest) now).1 } p hp with hin | hge
      · exact Or.inl (runMatch_ids st (d :: rest) now p hin)
      · exact Or.inr hge

theorem update_ids_lt (st : TrackerState) (dets : List Detection) (now : ℚ)
    (hinv : ∀ p ∈ st.tracks, p.1 < st.next_id) :
    ∀ p ∈ ((update st dets now).1).tracks, p.1 < ((update st dets now).1).next_id := by
  cases dets with
  | nil =>
      rw [update_nil]
      intro p hp
      exact hinv p (List.mem_filter.1 hp).1
  | cons d rest =>
      rw [update_cons_fst]
      refine createAux_ids_lt now _ _ 0 { st with tracks := (runMatch st (d :: rest) now).1 } ?_
      intro q hq
      rcases List.mem_map.1 (runMatch_ids st (d :: rest) now q hq) with ⟨r, hr, hfst⟩
      rw [← hfst]
      exact hinv r hr

theorem update_histlen (st : TrackerState) (dets : List Detection) (now : ℚ)
    (h : ∀ p ∈ st.tracks, p.2.positions.length ≤ st.max_history) :
    ∀ p ∈ ((update st dets now).1).tracks, p.2.positions.length ≤ st.max_history := by
  cases dets with
  | nil =>
      rw [update_nil]
      intro p hp
      exact h p (List.mem_filter.1 hp).1
  | cons d rest =>
      rw [update_cons_fst]
      exact createAux_histlen now _ _ 0 { st with tracks := (runMatch st (d :: rest) now).1 } (runMatch_histlen st (d :: rest) now h)

theorem applyUpdates_nil (st : TrackerState) : applyUpdates st [] = st := rfl

theorem applyUpdates_cons (st : TrackerState) (c : List Detection × ℚ)
    (cs : List (List Detection × ℚ)) :
    applyUpdates st (c :: cs) = applyUpdates ((update st c.1 c.2).1) cs := rfl

/-! ### Claims -/

/-- C1: for every TrackedVehicle whose bbox center lies inside the configured
self-exclusion rectangle, `classify_threat` returns level `'none'` with the
self-vehicle-zone reason, for every velocity and every bbox size, before the
ROI, lane-position, distance and motion rules are consulted. -/
theorem c1_self_zone_always_none {F : Type} (z : AdaptiveBlindSpotZone)
    (v : TrackedVehicle) (frame : F) (h : isInSelfZone z v.bbox = true) :
    classifyThreat z v frame = (ThreatLevel.none, "In self-vehicle zone") := by
  simp only [classifyThreat]
  rw [if_pos h]

theorem c1_self_zone_always_none_witness :
    classifyThreat (mkAdaptiveZone 800 600 .left)
      { id := 5, bbox := ⟨600, 400, 300, 300⟩, class_id := 2, velocity := (-50, 0),
        history_length := 2, positions := [] } (0 : Nat) =
      (ThreatLevel.none, "In self-vehicle zone") :=
  c1_self_zone_always_none _ _ _ (by with_unfolding_all decide)

/-- C2 counterexample: a vehicle with bbox-height ratio ≤ 0.30 whose center
lies in the self-exclusion zone classifies as `'none'`, not `'safe'`, so the
claim's universal "always yields safe" fails as stated. -/
theorem c2_small_height_counterexample :
    (((⟨600, 400, 40, 100⟩ : Bbox).h : ℚ) / ((mkAdaptiveZone 800 600 .left).height : ℚ)
        ≤ 3 / 10) ∧
    (classifyThreat (mkAdaptiveZone 800 600 .left)
      { id := 0, bbox := ⟨600, 400, 40, 100⟩, class_id := 2, velocity := (-30, 0),
        history_length := 2, positions := [] } ()).1 = ThreatLevel.none ∧
    ThreatLevel.none ≠ ThreatLevel.safe := by
  with_unfolding_all decide

/-- C2 (amended): provided the self-zone, vertical-ROI and opposite-lane
filters do not already discard the vehicle, a bbox-height-to-frame-height
ratio of at most 0.30 makes the distance proxy `'safe'` and the combine step
returns `('safe', "Distant vehicle")` regardless of the motion threat. -/
theorem c2_distance_dominates_combine {F : Type} (z : AdaptiveBlindSpotZone)
    (v : TrackedVehicle) (frame : F)
    (hself : isInSelfZone z v.bbox = false)
    (hroi : ¬ ((centerY v.bbox : ℚ) < (15 / 100 : ℚ) * (z.height : ℚ) ∨
        (centerY v.bbox : ℚ) > (85 / 100 : ℚ) * (z.height : ℚ)))
    (hlane : ¬ analyzeLanePosition z (centerX v.bbox) v.velocity = LaneStatus.opposite_lane)
    (hratio : (v.bbox.h : ℚ) / (z.height : ℚ) ≤ 3 / 10) :
    classifyThreat z v frame = (ThreatLevel.safe, "Distant vehicle") := by
  have hdist : analyzeDistance z v.bbox.h = ThreatLevel.safe := by
    have h1 : ¬ ((v.bbox.h : ℚ) / (z.height : ℚ) > 45 / 100) := by
      push_neg
      linarith
    have h2 : ¬ ((v.bbox.h : ℚ) / (z.height : ℚ) > 3 / 10) := by
      push_neg
      linarith
    simp only [analyzeDistance]
    rw [if_neg h1, if_neg h2]
  simp only [classifyThreat]
  rw [if_neg (by simp [hself]), if_neg hroi, if_neg hlane, if_pos hdist]

theorem c2_distance_dominates_combine_witness :
    classifyThreat (mkAdaptiveZone 800 600 .left)
      { id := 0, bbox := ⟨100, 300, 60, 150⟩, class_id := 2, velocity := (-30, 0),
        history_length := 2, positions := [] } () =
      (ThreatLevel.safe, "Distant vehicle") :=
  c2_distance_dominates_combine _ _ _ (by with_unfolding_all decide)
    (by with_unfolding_all decide) (by with_unfolding_all decide)
    (by with_unfolding_all decide)

/-- C5: with an empty detection list, `update` returns the empty list, creates
and matches nothing, keeps `next_id` and every configuration field, and keeps
exactly the tracks whose idle time `now - last_seen` is strictly below the
disappearance timeout (so it removes exactly those idle for at least the
timeout), each kept track unchanged. -/
theorem c5_empty_update_prunes_only (st : TrackerState) (now : ℚ) :
    update st [] now =
      ({ st with tracks := st.tracks.filter fun p => now - p.2.last_seen < st.max_disappeared },
       []) := rfl

/-- C10: `classify_threat` is a pure function of the vehicle's `bbox` and
`velocity` fields and the zone configuration: any two calls agreeing on those
return the same `(level, reason)` pair, whatever the frame argument (of any
type) and the vehicle's other fields are. -/
theorem c10_classify_pure_function {F G : Type} (z : AdaptiveBlindSpotZone)
    (v1 v2 : TrackedVehicle) (f1 : F) (f2 : G)
    (hb : v1.bbox = v2.bbox) (hv : v1.velocity = v2.velocity) :
    classifyThreat z v1 f1 = classifyThreat z v2 f2 := by
  unfold classifyThreat
  rw [hb, hv]

theorem c10_classify_pure_function_witness :
    classifyThreat (mkAdaptiveZone 800 600 .left)
      { id := 1, bbox := ⟨100, 300, 60, 200⟩, class_id := 2, velocity := (-30, 0),
        history_length := 2, positions := [⟨100, 300, 60, 200⟩] } (0 : Nat) =
    classifyThreat (mkAdaptiveZone 800 600 .left)
      { id := 7, bbox := ⟨100, 300, 60, 200⟩, class_id := 5, velocity := (-30, 0),
        history_length := 9, positions := [] } "frame" :=
  c10_classify_pure_function _ _ _ _ _ rfl rfl

/-- C9 counterexample: `get_zone` tests the bbox's top `y`, not the center's
vertical coordinate.  A bbox whose top lies above 0.2·H but whose center lies
well inside [0.2·H, 0.8·H] is classified `'none'`, refuting the claim that
`'none'` occurs exactly when the center is outside the band. -/
theorem c9_static_zone_counterexample :
    getZone (mkBlindSpotZone 800 600 .left) ⟨100, 50, 60, 200⟩ = ThreatLevel.none ∧
    (2 / 10 : ℚ) * 600 ≤ ((centerY ⟨100, 50, 60, 200⟩ : Int) : ℚ) ∧
    ((centerY ⟨100, 50, 60, 200⟩ : Int) : ℚ) ≤ (8 / 10 : ℚ) * 600 := by
  with_unfolding_all decide

/-- C9 (amended): in the static-zone variant, `get_zone` returns `'none'`
exactly when the bbox's top coordinate `y` lies outside [0.2·H, 0.8·H]; for
every bbox whose `y` lies inside that band it returns one of `'critical'`,
`'warning'`, `'safe'`, decided by the horizontal center for the configured
side. -/
theorem c9_static_zone_vertical_gate (z : BlindSpotZone) (b : Bbox) :
    (getZone z b = ThreatLevel.none ↔
      ((b.y : ℚ) < (2 / 10 : ℚ) * (z.height : ℚ) ∨ (b.y : ℚ) > (8 / 10 : ℚ) * (z.height : ℚ))) ∧
    (¬ ((b.y : ℚ) < (2 / 10 : ℚ) * (z.height : ℚ) ∨ (b.y : ℚ) > (8 / 10 : ℚ) * (z.height : ℚ)) →
      getZone z b = ThreatLevel.critical ∨ getZone z b = ThreatLevel.warning ∨
        getZone z b = ThreatLevel.safe) := by
  unfold getZone
  by_cases hv : (b.y : ℚ) < (2 / 10 : ℚ) * (z.height : ℚ) ∨
      (b.y : ℚ) > (8 / 10 : ℚ) * (z.height : ℚ)
  · rw [if_pos hv]
    exact ⟨⟨fun _ => hv, fun _ => rfl⟩, fun h => absurd hv h⟩
  · rw [if_neg hv]
    constructor
    · constructor
      · intro h
        exfalso
        cases hs : z.side <;> rw [hs] at h <;> split_ifs at h
      · intro h
        exact absurd h hv
    · intro _
      cases hs : z.side <;> split_ifs <;> simp
  
theorem c9_static_zone_vertical_gate_witness :
    getZone (mkBlindSpotZone 800 600 .left) ⟨100, 300, 60, 100⟩ = ThreatLevel.critical ∨
    getZone (mkBlindSpotZone 800 600 .left) ⟨100, 300, 60, 100⟩ = ThreatLevel.warning ∨
    getZone (mkBlindSpotZone 800 600 .left) ⟨100, 300, 60, 100⟩ = ThreatLevel.safe :=
  (c9_static_zone_vertical_gate _ _).2 (by with_unfolding_all decide)

/-- C4: per side, a critical/warning frame fires an alert only if more than
the 1.5-unit cooldown elapsed since that side's last fired alert (in
particular at least the cooldown elapsed); firing updates that side's
timestamp and only that side's; two consecutive critical frames within less
than the cooldown fire at most one alert; a later critical frame strictly
after the cooldown fires (and with both flags set it is the critical alert
that fires). -/
theorem c4_alert_cooldown_per_side (last : Side → ℚ) (side : Side) (c w : Bool) (now : ℚ) :
    ((fireSide last side c w now).1 ≠ Option.none → warningCooldown ≤ now - last side) ∧
    ((fireSide last side c w now).1 ≠ Option.none → (fireSide last side c w now).2 side = now) ∧
    ((fireSide last side c w now).1 = Option.none →
      (fireSide last side c w now).2 side = last side) ∧
    (∀ s : Side, s ≠ side → (fireSide last side c w now).2 s = last s) ∧
    (c = true → now - last side > warningCooldown →
      (fireSide last side c w now).1 = some "CRITICAL") ∧
    (∀ (t2 : ℚ) (c2 w2 : Bool), t2 - now < warningCooldown →
      (fireSide last side c w now).1 = Option.none ∨
      (fireSide (fireSide last side c w now).2 side c2 w2 t2).1 = Option.none) := by
  have hfire : ∀ (c' w' : Bool) (t l : ℚ),
      ((fireAlert c' w' t l).1 ≠ Option.none → warningCooldown ≤ t - l) ∧
      ((fireAlert c' w' t l).1 ≠ Option.none → (fireAlert c' w' t l).2 = t) ∧
      ((fireAlert c' w' t l).1 = Option.none → (fireAlert c' w' t l).2 = l) ∧
      (c' = true → t - l > warningCooldown → (fireAlert c' w' t l).1 = some "CRITICAL") := by
    intro c' w' t l
    unfold fireAlert
    split_ifs with h1 h2
    · exact ⟨fun _ => le_of_lt h1.2, fun _ => rfl, fun h => absurd h (by simp), fun _ _ => rfl⟩
    · exact ⟨fun _ => le_of_lt h2.2, fun _ => rfl, fun h => absurd h (by simp),
        fun hc hgt => absurd ⟨hc, hgt⟩ h1⟩
    · exact ⟨fun h => absurd rfl h, fun h => absurd rfl h, fun _ => rfl,
        fun hc hgt => absurd ⟨hc, hgt⟩ h1⟩
  have hside : (fireSide last side c w now).2 side = (fireAlert c w now (last side)).2 := by
    simp [fireSide]
  refine ⟨?_, ?_, ?_, ?_, ?_, ?_⟩
  · intro h
    exact (hfire c w now (last side)).1 h
  · intro h
    rw [hside]
    exact (hfire c w now (last side)).2.1 h
  · intro h
    rw [hside]
    exact (hfire c w now (last side)).2.2.1 h
  · intro s hs
    simp [fireSide, hs]
  · intro hc hgt
    exact (hfire c w now (last side)).2.2.2 hc hgt
  · intro t2 c2 w2 ht
    by_cases hfired : (fireSide last side c w now).1 = Option.none
    · exact Or.inl hfired
    · right
      have hl : (fireSide (fireSide last side c w now).2 side c2 w2 t2).1 =
          (fireAlert c2 w2 t2 ((fireSide last side c w now).2 side)).1 := by
        simp [fireSide]
      rw [hl, hside, (hfire c w now (last side)).2.1 (by
        simpa [fireSide] using hfired)]
      unfold fireAlert
      rw [if_neg (fun hcon => absurd hcon.2 (by linarith)),
          if_neg (fun hcon => absurd hcon.2 (by linarith))]

theorem c4_alert_cooldown_per_side_witness :
    (fireSide (fun _ => (0 : ℚ)) Side.left true true 2).1 = some "CRITICAL" :=
  ((c4_alert_cooldown_per_side (fun _ => (0 : ℚ)) Side.left true true 2).2.2.2.2.1) rfl
    (by with_unfolding_all decide)

/-- C3 counterexample: in the claimed scenario (left side, 800×600, frame-1
bbox [100,300,60,200]) the track created at frame 1 has velocity (0,0) and is
ALREADY classified `'critical'` ("Parallel in blind spot": zero horizontal
velocity is parallel motion and the center 130 lies in the critical band), so
it is not the case that the track is warning/critical-eligible only from
frame 2 onward. -/
theorem c3_frame1_already_critical_counterexample :
    ((update initTracker [⟨⟨100, 300, 60, 200⟩, 9 / 10, 2⟩] 0).2.map
      (fun v => (v.velocity, classifyThreat (mkAdaptiveZone 800 600 .left) v ())) =
      [((0, 0), (ThreatLevel.critical, "Parallel in blind spot"))]) ∧
    criticalDetected (mkAdaptiveZone 800 600 .left)
      (update initTracker [⟨⟨100, 300, 60, 200⟩, 9 / 10, 2⟩] 0).2 = true := by
  with_unfolding_all decide

/-- C3 (amended): the end-to-end scenario, with frame 1 corrected: feeding
bbox [100,300,60,200] at time 0 then [70,300,60,200] at time 1 through the
tracker creates exactly one track (id 0); at frame 1 its velocity is (0,0)
and it already classifies `('critical', "Parallel in blind spot")`; at frame 2
the velocity is (-30,0), the vehicle approaches (vx < -3) with center 100
inside the critical band (< 280), classifying
`('critical', "Fast approach in blind spot")`, and `critical_detected` is
true (at both frames). -/
theorem c3_end_to_end_scenario :
    ((update initTracker [⟨⟨100, 300, 60, 200⟩, 9 / 10, 2⟩] 0).1.tracks.map Prod.fst = [0]) ∧
    ((update initTracker [⟨⟨100, 300, 60, 200⟩, 9 / 10, 2⟩] 0).2 =
      [{ id := 0, bbox := ⟨100, 300, 60, 200⟩, class_id := 2, velocity := (0, 0),
         history_length := 1, positions := [] }]) ∧
    (classifyThreat (mkAdaptiveZone 800 600 .left)
      { id := 0, bbox := ⟨100, 300, 60, 200⟩, class_id := 2, velocity := (0, 0),
        history_length := 1, positions := [] } () =
      (ThreatLevel.critical, "Parallel in blind spot")) ∧
    ((update (update initTracker [⟨⟨100, 300, 60, 200⟩, 9 / 10, 2⟩] 0).1
        [⟨⟨70, 300, 60, 200⟩, 9 / 10, 2⟩] 1).1.tracks.map Prod.fst = [0]) ∧
    ((update (update initTracker [⟨⟨100, 300, 60, 200⟩, 9 / 10, 2⟩] 0).1
        [⟨⟨70, 300, 60, 200⟩, 9 / 10, 2⟩] 1).2 =
      [{ id := 0, bbox := ⟨70, 300, 60, 200⟩, class_id := 2, velocity := (-30, 0),
         history_length := 2, positions := [⟨100, 300, 60, 200⟩, ⟨70, 300, 60, 200⟩] }]) ∧
    (classifyThreat (mkAdaptiveZone 800 600 .left)
      { id := 0, bbox := ⟨70, 300, 60, 200⟩, class_id := 2, velocity := (-30, 0),
        history_length := 2, positions := [⟨100, 300, 60, 200⟩, ⟨70, 300, 60, 200⟩] } () =
      (ThreatLevel.critical, "Fast approach in blind spot")) ∧
    (criticalDetected (mkAdaptiveZone 800 600 .left)
      (update (update initTracker [⟨⟨100, 300, 60, 200⟩, 9 / 10, 2⟩] 0).1
        [⟨⟨70, 300, 60, 200⟩, 9 / 10, 2⟩] 1).2 = true) := by
  with_unfolding_all decide

/-- C6: a detection whose center is farther than the 100-pixel matching
radius (squared distance > 10000) from every live track's last known center
is never matched (its index never enters the matched set), and `update`
always creates a fresh track (id at least `next_id`) seeded with exactly that
detection, even if it is the only detection. -/
theorem c6_matching_radius_new_track (st : TrackerState) (dets : List Detection) (now : ℚ)
    (i : Nat) (hi : i < dets.length)
    (hfar : ∀ p ∈ st.tracks, ¬ p.2.positions.isEmpty = true →
      10000 < distSq (lastCenterQ p.2) (detCenterQ (dets.getD i ⟨⟨0, 0, 0, 0⟩, 0, 0⟩))) :
    i ∉ (runMatch st dets now).2 ∧
    ∃ tid, st.next_id ≤ tid ∧
      (tid, mkNewTrack (dets.getD i ⟨⟨0, 0, 0, 0⟩, 0, 0⟩) now st.max_history) ∈
        ((update st dets now).1).tracks := by
  have hnm : i ∉ (runMatch st dets now).2 :=
    runMatch_not_mem st dets now i ⟨⟨0, 0, 0, 0⟩, 0, 0⟩ hi hfar
  refine ⟨hnm, ?_⟩
  cases dets with
  | nil => exact absurd hi (by simp)
  | cons d rest =>
      rw [update_cons_fst]
      have hcr := createAux_creates now (runMatch st (d :: rest) now).2 ⟨⟨0, 0, 0, 0⟩, 0, 0⟩
        (d :: rest) 0 { st with tracks := (runMatch st (d :: rest) now).1 } i hi
        (by simpa using hnm)
      simpa using hcr

theorem c6_matching_radius_new_track_witness :
    0 ∉ (runMatch
      { tracks := [(0, ⟨[⟨0, 0, 10, 10⟩], 0, 2, 1⟩)], next_id := 1, max_history := 10,
        max_disappeared := 1 }
      [⟨⟨500, 500, 10, 10⟩, 1, 2⟩] (1 / 2)).2 :=
  (c6_matching_radius_new_track
    { tracks := [(0, ⟨[⟨0, 0, 10, 10⟩], 0, 2, 1⟩)], next_id := 1, max_history := 10,
      max_disappeared := 1 }
    [⟨⟨500, 500, 10, 10⟩, 1, 2⟩] (1 / 2) 0 (by with_unfolding_all decide)
    (by with_unfolding_all decide)).1

/-- C7: along any sequence of `update` calls, `next_id` is monotone, every
live track id stays below `next_id` (given that invariant initially), and
every live id is either an id that already existed at the start or a fresh id
at least the starting `next_id`.  Hence an id assigned once (always <
`next_id` immediately afterwards) can never be assigned to a later-created
track, even after deletion. -/
theorem c7_track_ids_never_reused (st : TrackerState) (calls : List (List Detection × ℚ))
    (hinv : ∀ p ∈ st.tracks, p.1 < st.next_id) :
    st.next_id ≤ (applyUpdates st calls).next_id ∧
    (∀ p ∈ (applyUpdates st calls).tracks, p.1 < (applyUpdates st calls).next_id) ∧
    (∀ p ∈ (applyUpdates st calls).tracks, p.1 ∈ st.tracks.map Prod.fst ∨ st.next_id ≤ p.1) := by
  have main : ∀ (st : TrackerState), (∀ p ∈ st.tracks, p.1 < st.next_id) →
      st.next_id ≤ (applyUpdates st calls).next_id ∧
      (∀ p ∈ (applyUpdates st calls).tracks, p.1 < (applyUpdates st calls).next_id) ∧
      (∀ p ∈ (applyUpdates st calls).tracks,
        p.1 ∈ st.tracks.map Prod.fst ∨ st.next_id ≤ p.1) := by
    induction calls with
    | nil =>
        intro st h
        exact ⟨Nat.le_refl _, h, fun p hp => Or.inl (List.mem_map_of_mem Prod.fst hp)⟩
    | cons c cs ih =>
        intro st h
        rw [applyUpdates_cons]
        have h1 := update_next_id_le st c.1 c.2
        have h2 := update_ids_or st c.1 c.2
        have h3 := update_ids_lt st c.1 c.2 h
        rcases ih ((update st c.1 c.2).1) h3 with ⟨ih1, ih2, ih3⟩
        refine ⟨Nat.le_trans h1 ih1, ih2, ?_⟩
        intro p hp
        rcases ih3 p hp with hin | hge
        · rcases List.mem_map.1 hin with ⟨q, hq, hfst⟩
          rcases h2 q hq with hin2 | hge2
          · rw [← hfst]
            exact Or.inl hin2
          · rw [← hfst]
            exact Or.inr hge2
        · exact Or.inr (Nat.le_trans h1 hge)
  exact main st hinv

theorem c7_track_ids_never_reused_witness :
    initTracker.next_id ≤
      (applyUpdates initTracker [([⟨⟨0, 0, 10, 10⟩, 1, 2⟩], 0), ([], 2)]).next_id :=
  (c7_track_ids_never_reused initTracker [([⟨⟨0, 0, 10, 10⟩, 1, 2⟩], 0), ([], 2)]
    (by with_unfolding_all decide)).1

/-- C8: along any sequence of `update` calls the history of every live track
never exceeds the configured capacity `max_history` (which itself never
changes), and the bounded append drops nothing below capacity while at
capacity it evicts exactly the oldest (head) entry, appending the new bbox at
the tail (FIFO, newest last). -/
theorem c8_history_bounded_fifo (st : TrackerState) (calls : List (List Detection × ℚ))
    (hlen : ∀ p ∈ st.tracks, p.2.positions.length ≤ st.max_history) :
    (∀ p ∈ (applyUpdates st calls).tracks, p.2.positions.length ≤ st.max_history) ∧
    ((applyUpdates st calls).max_history = st.max_history) ∧
    (∀ (ps : List Bbox) (b : Bbox), ps.length < st.max_history →
      pushBounded st.max_history ps b = ps ++ [b]) ∧
    (∀ (ps : List Bbox) (b : Bbox), ps.length = st.max_history → 0 < st.max_history →
      pushBounded st.max_history ps b = ps.tail ++ [b]) := by
  have main : ∀ (st : TrackerState),
      (∀ p ∈ st.tracks, p.2.positions.length ≤ st.max_history) →
      (∀ p ∈ (applyUpdates st calls).tracks, p.2.positions.length ≤ st.max_history) ∧
      ((applyUpdates st calls).max_history = st.max_history) := by
    induction calls with
    | nil =>
        intro st h
        exact ⟨h, rfl⟩
    | cons c cs ih =>
        intro st h
        rw [applyUpdates_cons]
        have hmh := update_max_history st c.1 c.2
        have hl := update_histlen st c.1 c.2 h
        rcases ih ((update st c.1 c.2).1) (by rw [hmh]; exact hl) with ⟨ihA, ihB⟩
        refine ⟨?_, ?_⟩
        · intro p hp
          have := ihA p hp
          rwa [hmh] at this
        · rw [ihB, hmh]
  rcases main st hlen with ⟨hA, hB⟩
  exact ⟨hA, hB, fun ps b hlt => pushBounded_below _ ps b hlt,
    fun ps b hcap hpos => pushBounded_at_capacity _ ps b hcap hpos⟩

theorem c8_history_bounded_fifo_witness :
    pushBounded initTracker.max_history
      [⟨0, 0, 1, 1⟩, ⟨1, 0, 1, 1⟩, ⟨2, 0, 1, 1⟩, ⟨3, 0, 1, 1⟩, ⟨4, 0, 1, 1⟩, ⟨5, 0, 1, 1⟩,
       ⟨6, 0, 1, 1⟩, ⟨7, 0, 1, 1⟩, ⟨8, 0, 1, 1⟩, ⟨9, 0, 1, 1⟩] ⟨10, 0, 1, 1⟩ =
    ([⟨0, 0, 1, 1⟩, ⟨1, 0, 1, 1⟩, ⟨2, 0, 1, 1⟩, ⟨3, 0, 1, 1⟩, ⟨4, 0, 1, 1⟩, ⟨5, 0, 1, 1⟩,
      ⟨6, 0, 1, 1⟩, ⟨7, 0, 1, 1⟩, ⟨8, 0, 1, 1⟩, ⟨9, 0, 1, 1⟩] : List Bbox).tail ++
      [⟨10, 0, 1, 1⟩] :=
  (c8_history_bounded_fifo initTracker [] (by with_unfolding_all decide)).2.2.2
    [⟨0, 0, 1, 1⟩, ⟨1, 0, 1, 1⟩, ⟨2, 0, 1, 1⟩, ⟨3, 0, 1, 1⟩, ⟨4, 0, 1, 1⟩, ⟨5, 0, 1, 1⟩,
     ⟨6, 0, 1, 1⟩, ⟨7, 0, 1, 1⟩, ⟨8, 0, 1, 1⟩, ⟨9, 0, 1, 1⟩] ⟨10, 0, 1, 1⟩
    (by with_unfolding_all decide) (by with_unfolding_all decide)
